import Mathlib

/-!
Verification of the `pkg/analysis` orchestration layer of k8sgpt
(`src/pkg/analysis/analysis.go`).

The Go code is shallowly embedded: pure fragments become Lean functions,
the mutex-serialized appends of the executor become a fold over task
outcomes, and the explanation pipeline becomes explicit state passing over
a cache-state type.  External collaborators (the cache backend, the AI
client, base64) are modelled as explicit parameters, exactly at the
interface the source uses.
-/

namespace K8sgpt

/-! ## Concurrency-limit clamping (`RunAnalysis`, lines 338-347, and
`RunCustomAnalysis`, line 247) -/

/-- The constant `maxAllowedConcurrency = 100` from `RunAnalysis`. -/
def maxAllowedConcurrency : Int := 100

/-- The clamping of `a.MaxConcurrency` performed by `RunAnalysis`:
`if concurrency <= 0 { concurrency = 10 } else if concurrency >
maxAllowedConcurrency { concurrency = maxAllowedConcurrency }`. -/
def clampConcurrency (c : Int) : Int :=
  if c ≤ 0 then 10
  else if c > maxAllowedConcurrency then maxAllowedConcurrency
  else c

/-- Capacity of the semaphore channel created by `RunAnalysis`
(`make(chan struct\x7b\x7d, concurrency)` after clamping). -/
def runAnalysisSemaphoreCapacity (maxConcurrency : Int) : Int :=
  clampConcurrency maxConcurrency

/-- Capacity of the semaphore channel created by `RunCustomAnalysis`
(`make(chan struct\x7b\x7d, a.MaxConcurrency)`, line 247 — the configured
value is used unchanged, with no clamping). -/
def runCustomAnalysisSemaphoreCapacity (maxConcurrency : Int) : Int :=
  maxConcurrency

end K8sgpt

namespace K8sgpt

/-! ## String machinery: Go `strings.Contains` and `strings.ReplaceAll` -/

/-- Go `strings.Contains(s, sub)` on character lists: `sub` occurs as a
contiguous substring of `s` (every string contains the empty string). -/
def hasSub : List Char → List Char → Bool
  | [], sub => sub.isEmpty
  | c :: rest, sub => sub.isPrefixOf (c :: rest) || hasSub rest sub

/-- Go `strings.Contains` on strings. -/
def hasSubS (s sub : String) : Bool :=
  hasSub s.data sub.data

/-- Core of Go `strings.ReplaceAll(s, old, new)` for a non-empty pattern
`old`: scan left to right; at each position, if `old` is a prefix, emit
`new` and continue after the matched occurrence (non-overlapping,
leftmost-match semantics), otherwise keep the character.  Structural
recursion on a fuel counter (each step consumes at least one character,
so fuel `s.length` suffices; the `0`-fuel arm is never reached). -/
def replaceAllFuel (old new : List Char) : Nat → List Char → List Char
  | _, [] => []
  | 0, s => s
  | fuel + 1, c :: rest =>
    if old ≠ [] ∧ old.isPrefixOf (c :: rest) then
      new ++ replaceAllFuel old new fuel (rest.drop (old.length - 1))
    else
      c :: replaceAllFuel old new fuel rest

/-- The left-to-right non-overlapping replacement scan, with adequate
fuel. -/
def replaceAllL (old new s : List Char) : List Char :=
  replaceAllFuel old new s.length s

/-- Go `strings.ReplaceAll(s, old, new)` on character lists.  When `old`
is empty, Go inserts `new` before every character and at the end
(`ReplaceAll("abc", "", "X") = "XaXbXcX"`). -/
def goReplaceAll (s old new : List Char) : List Char :=
  if old = [] then new ++ (s.map (fun c => c :: new)).flatten
  else replaceAllL old new s

/-- Go `strings.ReplaceAll` on strings. -/
def goReplaceAllS (s old new : String) : String :=
  ⟨goReplaceAll s.data old.data new.data⟩

/-- Drop leading whitespace characters. -/
def dropSpaceLeft : List Char → List Char
  | [] => []
  | c :: rest => if c.isWhitespace then dropSpaceLeft rest else c :: rest

/-- Go `strings.TrimSpace(s)`: remove leading and trailing whitespace. -/
def goTrimSpace (s : String) : String :=
  ⟨(dropSpaceLeft (dropSpaceLeft s.data).reverse).reverse⟩

/-! ## Data model (`common.Result`, `common.Failure`, `common.Sensitive`,
`common.AnalysisStats`, and the shared accumulator fields of `Analysis`) -/

/-- One sensitive substring pair of a failure (`common.Sensitive`):
the literal text to redact and its mask. -/
structure Sensitive where
  unmasked : String
  masked : String
  deriving Repr, DecidableEq

/-- One failure of an analysis result (`common.Failure`): human-readable
text plus the registered sensitive substrings. -/
structure Failure where
  text : String
  sensitive : List Sensitive
  deriving Repr, DecidableEq

/-- One analysis result (`common.Result`), restricted to the fields the
orchestration layer reads or writes: `Kind` (prompt-template and report
key), `Error` (the failures) and `Details` (set by the explanation step). -/
structure Result where
  kind : String
  error : List Failure
  details : String
  deriving Repr, DecidableEq

/-- One stats entry (`common.AnalysisStats`): the analyzer's filter name
and its elapsed wall-clock duration.  Wall-clock time is not modelled, so
the duration is recorded as `0`; every claim here is independent of it. -/
structure AnalysisStats where
  analyzer : String
  durationTime : Nat
  deriving Repr, DecidableEq

/-- The mutex-guarded accumulator triple of `Analysis`: `Results`,
`Errors`, `Stats`.  All writes in the source happen under one mutex, so a
run is modelled as a sequence of serialized state updates. -/
structure RunState where
  results : List Result
  errors : List String
  stats : List AnalysisStats
  deriving Repr, DecidableEq

/-! ## The bounded executor (`executeAnalyzer`, lines 396-446) -/

/-- The outcome of one analyzer task: its filter name and the
`(results, err)` pair returned by `analyzer.Analyze(analyzerConfig)`. -/
structure AnalyzerOutcome where
  name : String
  results : List Result
  err : Option String
  deriving Repr, DecidableEq

/-- The mutex-guarded tail of `executeAnalyzer` (lines 420-445): build the
stats entry, then on error append `"[filter] err"` to `Errors` (the
returned results are not touched), and on success append the results to
`Results`; the stats entry is appended in both cases when enabled. -/
def executeAnalyzer (withStats : Bool) (filter : String)
    (results : List Result) (err : Option String) (st : RunState) : RunState :=
  let stat : AnalysisStats := { analyzer := filter, durationTime := 0 }
  match err with
  | some e =>
    { st with
      stats := if withStats then st.stats ++ [stat] else st.stats
      errors := st.errors ++ ["[" ++ filter ++ "] " ++ e] }
  | none =>
    { st with
      stats := if withStats then st.stats ++ [stat] else st.stats
      results := st.results ++ results }

/-- A full run of the bounded executor over a list of task outcomes: the
mutex serializes the per-task updates, so the final state is a fold of
`executeAnalyzer` steps in some serialization order (quantifying over the
list covers every order). -/
def runAnalyzers (withStats : Bool) (tasks : List AnalyzerOutcome)
    (st : RunState) : RunState :=
  tasks.foldl (fun s t => executeAnalyzer withStats t.name t.results t.err s) st

/-! ## The analyzer selector (`RunAnalysis`, lines 350-394) -/

/-- The error message appended for an unknown explicit filter
(line 375). -/
def unknownFilterMsg (f : String) : String :=
  "\"" ++ f ++ "\" filter does not exist. Please run k8sgpt filters list."

/-- The selection logic of `RunAnalysis`: given the explicit filter list
`a.Filters`, the configured `active_filters`, the names of the core
registry and of the full registry, return the scheduled task names and the
error-log entries appended by selection.  Mirrors the three branches of
the source: both empty ⇒ all core analyzers; explicit filters ⇒ schedule
the known, log the unknown; otherwise ⇒ schedule the known active
filters, silently skipping the unknown. -/
def selectAnalyzers (filters activeFilters coreNames registryNames : List String) :
    List String × List String :=
  if filters = [] ∧ activeFilters = [] then
    (coreNames, [])
  else if filters ≠ [] then
    (filters.filter (fun f => registryNames.contains f),
     filters.filterMap (fun f =>
       if registryNames.contains f then none else some (unknownFilterMsg f)))
  else
    (activeFilters.filter (fun f => registryNames.contains f), [])

/-! ## The explanation pipeline (`GetAIResults`, lines 448-515, and
`getAIResultForSanitizedFailures`, lines 517-552) -/

/-- Go `fmt.Sprintf` restricted to `%s` verbs: each `%s` consumes the
next argument; a `%s` with no argument left renders Go's
`%!s(MISSING)` marker (never reached by the claims). -/
def sprintfAux : List Char → List String → List Char
  | [], _ => []
  | '%' :: 's' :: rest, a :: args => a.data ++ sprintfAux rest args
  | '%' :: 's' :: rest, [] => ("%!s(MISSING)").data ++ sprintfAux rest []
  | c :: rest, args => c :: sprintfAux rest args

/-- Go `fmt.Sprintf` with `%s` verbs, on strings. -/
def sprintfS (tmpl : String) (args : List String) : String :=
  ⟨sprintfAux tmpl.data args⟩

/-- Modelled from the spec: the backend name constant
`ai.CustomRestClientName` (`pkg/ai`, not in src).  Its exact value is
irrelevant to every claim; only the equality test against the provider
name matters. -/
def customRestClientName : String := "customrest"

/-- Modelled from the spec: the raw prompt template `ai.PromptMap["raw"]`
(`pkg/ai`, not in src), used only for the custom REST backend.  Its exact
text is irrelevant to every claim. -/
def promptMapRawTemplate : String := "%s %s %s"

/-- Modelled from the spec: `util.GetCacheKey` (`pkg/util`, not in src) —
"Compute `cacheKey = fingerprint(providerName, language, inputKey)` — a
pure, deterministic function; identical inputs must always yield an
identical key".  The concrete fingerprint shape is irrelevant to the
claims, which rely only on purity and determinism. -/
def getCacheKey (provider language inputKey : String) : String :=
  provider ++ "-" ++ language ++ "-" ++ inputKey

/-- The environment of the explanation pipeline: the borrowed cache
(`cache.ICache` over an abstract cache state `σ`), the AI client
(`ai.IAI`: its name and completion call, modelled as a pure function),
the base64 codec (`encoding/base64`, Go standard library: encode is
total, decode can fail), the analysis language and the prompt map. -/
structure AIEnv (σ : Type) where
  cacheDisabled : σ → Bool
  cacheExists : σ → String → Bool
  cacheLoad : σ → String → Except String String
  cacheStore : σ → String → String → Option String × σ
  aiName : String
  getCompletion : String → Except String String
  b64enc : String → String
  b64dec : String → Except String String
  language : String
  promptMap : List (String × String)

/-- Prompt rendering (lines 539-542): substitute the language and the
joined failure texts into the trimmed template; for the custom REST
backend, wrap the result in the raw template. -/
def renderPrompt (env : AIEnv σ) (promptTmpl inputKey : String) : String :=
  let prompt := sprintfS (goTrimSpace promptTmpl) [env.language, inputKey]
  if env.aiName = customRestClientName then
    sprintfS promptMapRawTemplate [env.language, inputKey, prompt]
  else prompt

/-- `getAIResultForSanitizedFailures` (lines 517-552): join the texts
with spaces, fingerprint the cache key, and if caching is enabled and the
key exists, load it — a load error is returned as the step's error; a
non-empty payload that base64-decodes is returned as the response; a
decode failure (logged in the source) and an empty payload both fall
through to the remote call.  The remote path renders the prompt, calls
`GetCompletion` (an error is returned as-is), then stores the
base64-encoded response — a store error is only logged.  Returns the
step's `(response-or-error, cache state, number of remote calls)`. -/
def getAIResultForSanitizedFailures (env : AIEnv σ) (texts : List String)
    (promptTmpl : String) (cs : σ) : Except String String × σ × Nat :=
  let inputKey := String.intercalate " " texts
  let cacheKey := getCacheKey env.aiName env.language inputKey
  let cached : Option (Except String String) :=
    if !(env.cacheDisabled cs) && env.cacheExists cs cacheKey then
      match env.cacheLoad cs cacheKey with
      | .error e => some (.error e)
      | .ok response =>
        if response ≠ "" then
          match env.b64dec response with
          | .ok output => some (.ok output)
          | .error _ => none
        else none
    else none
  match cached with
  | some r => (r, cs, 0)
  | none =>
    let prompt := renderPrompt env promptTmpl inputKey
    match env.getCompletion prompt with
    | .error err => (.error err, cs, 1)
    | .ok response =>
      let stored := env.cacheStore cs cacheKey (env.b64enc response)
      (.ok response, stored.2, 1)

/-- The anonymization loop of `GetAIResults` (lines 471-475): apply each
sensitive pair's `ReplaceIfMatch(text, Unmasked, Masked)` in list order.
`util.ReplaceIfMatch` itself is modelled from the spec (`pkg/util`, not in
src): "replace every occurrence of each `SensitiveMatch.Unmasked`
substring within that failure's text with its `Masked` counterpart". -/
def maskText (sens : List Sensitive) (t : String) : String :=
  sens.foldl (fun acc s => goReplaceAllS acc s.unmasked s.masked) t

/-- The failure texts collected for one result (lines 463-477): each
failure's text, masked first when anonymization is on.  The loop variable
is a copy in Go, so the result's own failures are not mutated. -/
def collectTexts (anonymize : Bool) (r : Result) : List String :=
  r.error.map (fun f => if anonymize then maskText f.sensitive f.text else f.text)

/-- The inner de-anonymization loop of `GetAIResults` (lines 502-504):
for every sensitive pair of one failure, `strings.ReplaceAll(result,
Masked, Unmasked)` in list order. -/
def unmaskText (sens : List Sensitive) (s : String) : String :=
  sens.foldl (fun acc sm => goReplaceAllS acc sm.masked sm.unmasked) s

/-- The de-anonymization loop of `GetAIResults` (lines 500-506): for every
failure, for every sensitive pair, `strings.ReplaceAll(result, Masked,
Unmasked)`. -/
def unmaskAll (failures : List Failure) (s : String) : String :=
  failures.foldl (fun acc f => unmaskText f.sensitive acc) s

/-- The quota-exhaustion message of line 495. -/
def quotaErrMsg (name e : String) : String :=
  "exhausted API quota for AI provider " ++ name ++ ": " ++ e

/-- The generic provider-failure message of line 497. -/
def providerErrMsg (name e : String) : String :=
  "failed while calling AI provider " ++ name ++ ": " ++ e

/-- Prompt-template selection (lines 479-484): `PromptMap[Kind]` when
registered, else `PromptMap["default"]` (Go yields `""` for a missing
key). -/
def selectPromptTemplate (promptMap : List (String × String)) (kind : String) : String :=
  match promptMap.lookup kind with
  | some p => p
  | none => (promptMap.lookup "default").getD ""

/-- The loop body of `GetAIResults` (lines 463-513), processing results
strictly sequentially: for each result, collect (possibly masked) failure
texts, pick the prompt template, run the cache-or-remote step; on a step
error, classify it by the `"status code: 429"` substring into the quota
message or the generic message (both tagged with the provider name) and
stop — the current and remaining results are left untouched; on success,
de-anonymize when requested, set `Details`, and continue.  Returns the
optional error, the final results list, the final cache state and the
total number of remote calls. -/
def getAIResults (env : AIEnv σ) (anonymize : Bool) :
    List Result → σ → Option String × List Result × σ × Nat
  | [], cs => (none, [], cs, 0)
  | r :: rest, cs =>
    let texts := collectTexts anonymize r
    let promptTemplate := selectPromptTemplate env.promptMap r.kind
    match getAIResultForSanitizedFailures env texts promptTemplate cs with
    | (.error e, cs1, n) =>
      let msg := if hasSubS e "status code: 429"
        then quotaErrMsg env.aiName e
        else providerErrMsg env.aiName e
      (some msg, r :: rest, cs1, n)
    | (.ok result, cs1, n) =>
      let unmasked := if anonymize then unmaskAll r.error result else result
      let r1 : Result := { r with details := unmasked }
      let outcome := getAIResults env anonymize rest cs1
      (outcome.1, r1 :: outcome.2.1, outcome.2.2.1, n + outcome.2.2.2)

/-! ## A concrete cache backend -/

/-- Association-list lookup (first binding wins). -/
def lookupStr : List (String × String) → String → Option String
  | [], _ => none
  | (k, v) :: rest, key => if k = key then some v else lookupStr rest key

/-- Modelled from the spec: a well-behaved cache backend implementing the
`Cache` interface of section 6 (`Exists`, `Load`, `Store`, `IsDisabled`)
over the `CacheEntry` store of section 3: a string-keyed store of encoded
payloads with a disabled flag. -/
structure CacheState where
  disabled : Bool
  entries : List (String × String)
  deriving Repr, DecidableEq

/-- `Exists`: the key has a stored binding. -/
def CacheState.existsKey (c : CacheState) (k : String) : Bool :=
  (lookupStr c.entries k).isSome

/-- `Load`: the stored payload, `""` when absent; never fails. -/
def CacheState.loadKey (c : CacheState) (k : String) : Except String String :=
  .ok ((lookupStr c.entries k).getD "")

/-- `Store`: prepend the binding; never fails. -/
def CacheState.storeKey (c : CacheState) (k v : String) : Option String × CacheState :=
  (none, { c with entries := (k, v) :: c.entries })

/-- The explanation-pipeline environment over the concrete cache
backend. -/
def listCacheEnv (aiName language : String)
    (getCompletion : String → Except String String)
    (b64enc : String → String) (b64dec : String → Except String String)
    (promptMap : List (String × String)) : AIEnv CacheState :=
  { cacheDisabled := fun c => c.disabled
    cacheExists := CacheState.existsKey
    cacheLoad := CacheState.loadKey
    cacheStore := CacheState.storeKey
    aiName := aiName
    getCompletion := getCompletion
    b64enc := b64enc
    b64dec := b64dec
    language := language
    promptMap := promptMap }

/-- The same environment with the cache reporting itself disabled —
the pipeline's pure no-cache path. -/
def disableCacheEnv (env : AIEnv σ) : AIEnv σ :=
  { env with cacheDisabled := fun _ => true }

/-! ## Concrete environments for witnesses and counterexamples -/

/-- A cache whose `Load` fails although `Exists` reports the key as
present (for example, a remote cache losing its connection between the
two calls). -/
def loadFailEnv : AIEnv Unit :=
  { cacheDisabled := fun _ => false
    cacheExists := fun _ _ => true
    cacheLoad := fun _ _ => .error "cache load failed"
    cacheStore := fun s _ _ => (none, s)
    aiName := "openai"
    getCompletion := fun _ => .ok "remote response"
    b64enc := id
    b64dec := fun s => .ok s
    language := "english"
    promptMap := [] }

/-- A cache holding a payload that fails to base64-decode. -/
def decodeFailEnv : AIEnv Unit :=
  { cacheDisabled := fun _ => false
    cacheExists := fun _ _ => true
    cacheLoad := fun _ _ => .ok "not base64!"
    cacheStore := fun s _ _ => (none, s)
    aiName := "openai"
    getCompletion := fun _ => .ok "fresh response"
    b64enc := id
    b64dec := fun _ => .error "illegal base64 data"
    language := "english"
    promptMap := [] }

/-- A cache whose `Store` fails (the remote call itself succeeds). -/
def storeFailEnv : AIEnv Unit :=
  { cacheDisabled := fun _ => true
    cacheExists := fun _ _ => false
    cacheLoad := fun _ _ => .ok ""
    cacheStore := fun s _ _ => (some "disk full", s)
    aiName := "openai"
    getCompletion := fun _ => .ok "fresh response"
    b64enc := id
    b64dec := fun s => .ok s
    language := "english"
    promptMap := [] }

/-- A cache reporting the key present but loading an empty payload. -/
def emptyPayloadEnv : AIEnv Unit :=
  { cacheDisabled := fun _ => false
    cacheExists := fun _ _ => true
    cacheLoad := fun _ _ => .ok ""
    cacheStore := fun s _ _ => (none, s)
    aiName := "openai"
    getCompletion := fun _ => .ok "fresh response"
    b64enc := id
    b64dec := fun s => .ok s
    language := "english"
    promptMap := [] }

/-- A disabled cache and a remote call failing with a quota-exhaustion
message. -/
def remoteFailEnv : AIEnv Unit :=
  { cacheDisabled := fun _ => true
    cacheExists := fun _ _ => false
    cacheLoad := fun _ _ => .ok ""
    cacheStore := fun s _ _ => (none, s)
    aiName := "openai"
    getCompletion := fun _ => .error "request error, status code: 429"
    b64enc := id
    b64dec := fun s => .ok s
    language := "english"
    promptMap := [] }

/-- The concrete-cache environment whose remote call returns the empty
response (base64 of the empty string is the empty string). -/
def emptyResponseEnv : AIEnv CacheState :=
  listCacheEnv "openai" "english" (fun _ => .ok "") id (fun s => .ok s) []

/-- A disabled cache whose remote call fails exactly on prompts
mentioning `bad`, to exercise a mid-list explanation failure. -/
def stepFailEnv : AIEnv Unit :=
  { cacheDisabled := fun _ => true
    cacheExists := fun _ _ => false
    cacheLoad := fun _ _ => .ok ""
    cacheStore := fun s _ _ => (none, s)
    aiName := "openai"
    getCompletion := fun p => if hasSubS p "bad" then .error "boom" else .ok "explained"
    b64enc := id
    b64dec := fun s => .ok s
    language := "english"
    promptMap := [("default", "%s %s")] }

/-! ## Theorems -/

/-- C3: the core executor clamps the configured concurrency limit before
creating the semaphore: non-positive values default to 10, values above
100 are capped at 100, and values in (0, 100] are used unchanged. -/
theorem c3_concurrency_clamped (c : Int) :
    (c ≤ 0 → runAnalysisSemaphoreCapacity c = 10) ∧
    (c > 100 → runAnalysisSemaphoreCapacity c = 100) ∧
    (0 < c → c ≤ 100 → runAnalysisSemaphoreCapacity c = c) := by
  unfold runAnalysisSemaphoreCapacity clampConcurrency maxAllowedConcurrency
  refine ⟨fun h => ?_, fun h => ?_, fun h1 h2 => ?_⟩ <;> split_ifs <;> omega

/-- Witness for C3 at concrete limits 0, 101 and 7. -/
theorem c3_concurrency_clamped_witness :
    runAnalysisSemaphoreCapacity 0 = 10 ∧
    runAnalysisSemaphoreCapacity 101 = 100 ∧
    runAnalysisSemaphoreCapacity 7 = 7 :=
  ⟨(c3_concurrency_clamped 0).1 (by decide),
   (c3_concurrency_clamped 101).2.1 (by decide),
   (c3_concurrency_clamped 7).2.2 (by decide) (by decide)⟩

/-- C4 counterexample: the custom-plugin runner does not apply the core
executor's clamping rule — at configured limit 101 its semaphore capacity
is 101 while the clamped capacity is 100, and at 0 its capacity is 0
while the clamped capacity is 10. -/
theorem c4_custom_runner_clamping_counterexample :
    runCustomAnalysisSemaphoreCapacity 101 = 101 ∧
    runAnalysisSemaphoreCapacity 101 = 100 ∧
    runCustomAnalysisSemaphoreCapacity 0 = 0 ∧
    runAnalysisSemaphoreCapacity 0 = 10 := by
  refine ⟨rfl, by decide, rfl, by decide⟩

/-- C4 amended: the custom-plugin runner performs no clamping — its
semaphore capacity is the configured limit unchanged, and it coincides
with the core executor's clamped capacity exactly when the configured
limit lies in (0, 100]. -/
theorem c4_custom_runner_uses_raw_limit (c : Int) :
    runCustomAnalysisSemaphoreCapacity c = c ∧
    (runCustomAnalysisSemaphoreCapacity c = runAnalysisSemaphoreCapacity c ↔
      (0 < c ∧ c ≤ 100)) := by
  unfold runCustomAnalysisSemaphoreCapacity runAnalysisSemaphoreCapacity
    clampConcurrency maxAllowedConcurrency
  refine ⟨rfl, ?_⟩
  constructor
  · intro h
    split_ifs at h <;> omega
  · intro h
    split_ifs <;> omega

/-- The executor over any task list and any starting state appends, per
task: its tagged error when it failed, its results when it succeeded
(results accompanying an error are dropped), and its stats entry when
stats collection is on. -/
theorem runAnalyzers_characterize (withStats : Bool)
    (tasks : List AnalyzerOutcome) (st : RunState) :
    runAnalyzers withStats tasks st =
      { results := st.results ++
          (tasks.filterMap (fun t =>
            if t.err = none then some t.results else none)).flatten
        errors := st.errors ++
          tasks.filterMap (fun t => t.err.map (fun e => "[" ++ t.name ++ "] " ++ e))
        stats := st.stats ++
          (if withStats then tasks.map (fun t => ⟨t.name, 0⟩) else []) } := by
  induction tasks generalizing st with
  | nil =>
    cases st
    simp [runAnalyzers]
  | cons t ts ih =>
    have hstep : runAnalyzers withStats (t :: ts) st =
        runAnalyzers withStats ts (executeAnalyzer withStats t.name t.results t.err st) := rfl
    rw [hstep, ih]
    cases h : t.err with
    | none =>
      cases withStats <;>
        simp [executeAnalyzer, h, List.filterMap_cons, List.append_assoc]
    | some e =>
      cases withStats <;>
        simp [executeAnalyzer, h, List.filterMap_cons, List.append_assoc]

/-- C1 counterexample: a task named `Service` that fails with error
`boom` while also returning a non-empty result list contributes only the
tagged error log entry `[Service] boom`; the result it returned alongside
the error is not merged into the result store. -/
theorem c1_error_results_discarded_counterexample :
    executeAnalyzer false "Service" [⟨"Pod", [], ""⟩] (some "boom") ⟨[], [], []⟩ =
      ⟨[], ["[Service] boom"], []⟩ ∧
    ([⟨"Pod", [], ""⟩] : List Result) ≠ [] := by
  refine ⟨rfl, by decide⟩

/-- C1 amended: a failing task does not cancel or affect sibling tasks —
the run's final store is exactly each task's independent contribution in
serialization order: every failing task contributes one error entry
tagged `[name] error` (its returned results are discarded, not merged),
and every successful task contributes its results. -/
theorem c1_executor_fault_isolation (withStats : Bool)
    (tasks : List AnalyzerOutcome) :
    runAnalyzers withStats tasks ⟨[], [], []⟩ =
      { results := (tasks.filterMap (fun t =>
          if t.err = none then some t.results else none)).flatten
        errors := tasks.filterMap (fun t =>
          t.err.map (fun e => "[" ++ t.name ++ "] " ++ e))
        stats := if withStats then tasks.map (fun t => ⟨t.name, 0⟩) else [] } := by
  rw [runAnalyzers_characterize]
  simp

/-- A pattern that is a prefix of the text is contained in it. -/
theorem hasSub_of_isPrefixOf {s sub : List Char} (h : sub.isPrefixOf s) :
    hasSub s sub = true := by
  cases s with
  | nil =>
    cases sub with
    | nil => rfl
    | cons c cs => simp [List.isPrefixOf] at h
  | cons c rest => simp [hasSub, h]

/-- Containment is preserved by prepending a character. -/
theorem hasSub_cons (c : Char) {rest sub : List Char} (h : hasSub rest sub = true) :
    hasSub (c :: rest) sub = true := by
  simp [hasSub, h]

/-- The character data of the unknown-filter message: a quote, the name,
then the fixed tail. -/
theorem unknownFilterMsg_data (f : String) :
    (unknownFilterMsg f).data =
      '"' :: (f.data ++
        ("\" filter does not exist. Please run k8sgpt filters list.").data) := by
  unfold unknownFilterMsg
  rw [String.data_append, String.data_append]
  rfl

/-- The unknown-filter message contains the unknown name as a
substring. -/
theorem hasSubS_unknownFilterMsg (name : String) :
    hasSubS (unknownFilterMsg name) name = true := by
  unfold hasSubS
  rw [unknownFilterMsg_data]
  exact hasSub_cons _ (hasSub_of_isPrefixOf
    (List.isPrefixOf_iff_prefix.mpr (List.prefix_append _ _)))

/-- Distinct filter names produce distinct unknown-filter messages. -/
theorem unknownFilterMsg_inj {f g : String}
    (h : unknownFilterMsg f = unknownFilterMsg g) : f = g := by
  have hd := congrArg String.data h
  rw [unknownFilterMsg_data, unknownFilterMsg_data] at hd
  exact String.ext (List.append_cancel_right (List.cons_injective.eq_iff.mp hd))

/-- The unknown-filter messages produced by the explicit-filter branch
contain the message for an unknown `name` exactly as often as `name`
occurs in the filter list. -/
theorem count_unknown_msgs (name : String) (registryNames : List String)
    (habs : registryNames.contains name = false) (filters : List String) :
    (filters.filterMap (fun f =>
      if registryNames.contains f then none
      else some (unknownFilterMsg f))).count (unknownFilterMsg name) =
      filters.count name := by
  induction filters with
  | nil => rfl
  | cons f fs ih =>
    rw [List.filterMap_cons]
    by_cases hf : registryNames.contains f
    · have hf' : f ∈ registryNames := by simpa using hf
      have hfn : (f == name) = false := by
        by_cases hfe : f = name
        · subst hfe
          rw [hf] at habs
          cases habs
        · simp [hfe]
      simpa [hf', List.count_cons, hfn] using ih
    · have hf' : f ∉ registryNames := by simpa using hf
      by_cases hfe : f = name
      · subst hfe
        simpa [hf', List.count_cons] using ih
      · have hmsg : (unknownFilterMsg f == unknownFilterMsg name) = false := by
          simp only [beq_eq_false_iff_ne, ne_eq]
          intro hc
          exact hfe (unknownFilterMsg_inj hc)
        simpa [hf', List.count_cons, hmsg, hfe] using ih

/-- C8: for an explicit filter name that is absent from the full registry
(and listed once), selection appends exactly one error-log entry — the
unknown-filter message, which contains that name — schedules no task for
it, still schedules every explicitly listed name that is in the registry,
and the active-filters branch appends no error-log entry at all. -/
theorem c8_unknown_explicit_filter (name : String)
    (filters activeFilters coreNames registryNames : List String)
    (hne : filters ≠ [])
    (habs : registryNames.contains name = false)
    (honce : filters.count name = 1) :
    (selectAnalyzers filters activeFilters coreNames registryNames).2.count
        (unknownFilterMsg name) = 1 ∧
    hasSubS (unknownFilterMsg name) name = true ∧
    name ∉ (selectAnalyzers filters activeFilters coreNames registryNames).1 ∧
    (∀ f ∈ filters, registryNames.contains f = true →
      f ∈ (selectAnalyzers filters activeFilters coreNames registryNames).1) ∧
    (∀ af : List String, af ≠ [] →
      (selectAnalyzers [] af coreNames registryNames).2 = []) := by
  have hsel : selectAnalyzers filters activeFilters coreNames registryNames =
      (filters.filter (fun f => registryNames.contains f),
       filters.filterMap (fun f =>
         if registryNames.contains f then none
         else some (unknownFilterMsg f))) := by
    unfold selectAnalyzers
    rw [if_neg (fun h => hne h.1), if_pos hne]
  refine ⟨?_, hasSubS_unknownFilterMsg name, ?_, ?_, ?_⟩
  · rw [hsel]
    exact (count_unknown_msgs name registryNames habs filters).trans honce
  · rw [hsel]
    intro hmem
    have hc := (List.mem_filter.mp hmem).2
    rw [habs] at hc
    cases hc
  · intro f hf hreg
    rw [hsel]
    exact List.mem_filter.mpr ⟨hf, hreg⟩
  · intro af haf
    unfold selectAnalyzers
    rw [if_neg (fun h => haf h.2), if_neg (fun h => h rfl)]

/-- C2 counterexample: a cache `Load` failure is returned as the failure
of the explanation step (and the remote service is not called), so not
every cache error is merely logged. -/
theorem c2_cache_load_error_propagates_counterexample :
    getAIResultForSanitizedFailures loadFailEnv ["some failure"] "%s %s" () =
      (.error "cache load failed", (), 0) := rfl

/-- C2 amended: a cache decode failure is only logged — the step behaves
exactly as with caching disabled, falling through to a fresh remote call;
a cache store failure is only logged — the step still returns the remote
response successfully; but a cache load failure is returned as the
failure of the explanation step, with no remote call. -/
theorem c2_cache_error_handling {σ : Type} :
    (∀ (env : AIEnv σ) (cs : σ) (texts : List String) (tmpl v e : String),
      env.cacheDisabled cs = false →
      env.cacheExists cs
        (getCacheKey env.aiName env.language (String.intercalate " " texts)) = true →
      env.cacheLoad cs
        (getCacheKey env.aiName env.language (String.intercalate " " texts)) = .ok v →
      v ≠ "" →
      env.b64dec v = .error e →
      getAIResultForSanitizedFailures env texts tmpl cs =
        getAIResultForSanitizedFailures (disableCacheEnv env) texts tmpl cs) ∧
    (∀ (env : AIEnv σ) (cs : σ) (texts : List String) (tmpl r serr : String) (cs1 : σ),
      env.cacheDisabled cs = true →
      env.getCompletion
        (renderPrompt env tmpl (String.intercalate " " texts)) = .ok r →
      env.cacheStore cs
        (getCacheKey env.aiName env.language (String.intercalate " " texts))
        (env.b64enc r) = (some serr, cs1) →
      getAIResultForSanitizedFailures env texts tmpl cs = (.ok r, cs1, 1)) ∧
    (∀ (env : AIEnv σ) (cs : σ) (texts : List String) (tmpl e : String),
      env.cacheDisabled cs = false →
      env.cacheExists cs
        (getCacheKey env.aiName env.language (String.intercalate " " texts)) = true →
      env.cacheLoad cs
        (getCacheKey env.aiName env.language (String.intercalate " " texts)) = .error e →
      getAIResultForSanitizedFailures env texts tmpl cs = (.error e, cs, 0)) := by
  refine ⟨?_, ?_, ?_⟩
  · intro env cs texts tmpl v e hdis hex hload hne hdec
    obtain ⟨cd, ce, cl, cst, an, gc, be, bd, lang, pm⟩ := env
    simp only at hdis hex hload hdec
    simp [getAIResultForSanitizedFailures, disableCacheEnv, renderPrompt,
      hdis, hex, hload, hne, hdec]
  · intro env cs texts tmpl r serr cs1 hdis hok hstore
    obtain ⟨cd, ce, cl, cst, an, gc, be, bd, lang, pm⟩ := env
    simp only at hdis hstore
    simp only [renderPrompt] at hok
    simp [getAIResultForSanitizedFailures, renderPrompt, hdis, hok, hstore]
  · intro env cs texts tmpl e hdis hex hload
    obtain ⟨cd, ce, cl, cst, an, gc, be, bd, lang, pm⟩ := env
    simp only at hdis hex hload
    simp [getAIResultForSanitizedFailures, hdis, hex, hload]

/-- Witness for C2 amended: the decode-failure, store-failure and
load-failure environments at concrete inputs. -/
theorem c2_cache_error_handling_witness :
    (getAIResultForSanitizedFailures decodeFailEnv ["t"] "%s %s" () =
      getAIResultForSanitizedFailures (disableCacheEnv decodeFailEnv) ["t"] "%s %s" ()) ∧
    (getAIResultForSanitizedFailures storeFailEnv ["t"] "%s %s" () =
      (.ok "fresh response", (), 1)) ∧
    (getAIResultForSanitizedFailures loadFailEnv ["t"] "%s %s" () =
      (.error "cache load failed", (), 0)) :=
  ⟨c2_cache_error_handling.1 decodeFailEnv () ["t"] "%s %s" "not base64!"
      "illegal base64 data" rfl rfl rfl (by decide) rfl,
   c2_cache_error_handling.2.1 storeFailEnv () ["t"] "%s %s" "fresh response"
      "disk full" () rfl rfl rfl,
   c2_cache_error_handling.2.2 loadFailEnv () ["t"] "%s %s" "cache load failed"
      rfl rfl rfl⟩

/-- C10: a present key whose loaded payload is the empty string is
treated as a cache miss — the step behaves exactly as with caching
disabled, and the remote completion service is invoked once. -/
theorem c10_empty_cached_payload_is_miss (env : AIEnv σ) (cs : σ)
    (texts : List String) (tmpl : String)
    (hdis : env.cacheDisabled cs = false)
    (hex : env.cacheExists cs
      (getCacheKey env.aiName env.language (String.intercalate " " texts)) = true)
    (hload : env.cacheLoad cs
      (getCacheKey env.aiName env.language (String.intercalate " " texts)) = .ok "") :
    getAIResultForSanitizedFailures env texts tmpl cs =
      getAIResultForSanitizedFailures (disableCacheEnv env) texts tmpl cs ∧
    (getAIResultForSanitizedFailures env texts tmpl cs).2.2 = 1 := by
  obtain ⟨cd, ce, cl, cst, an, gc, be, bd, lang, pm⟩ := env
  simp only at hdis hex hload
  constructor
  · simp [getAIResultForSanitizedFailures, disableCacheEnv, renderPrompt,
      hdis, hex, hload]
  · simp only [getAIResultForSanitizedFailures, hdis, hex, hload]
    cases hgc : gc (renderPrompt ⟨cd, ce, cl, cst, an, gc, be, bd, lang, pm⟩ tmpl
        (String.intercalate " " texts)) <;>
      simp [renderPrompt, hgc]

/-- Witness for C10 at the empty-payload environment. -/
theorem c10_empty_cached_payload_is_miss_witness :
    (getAIResultForSanitizedFailures emptyPayloadEnv ["t"] "%s %s" () =
      getAIResultForSanitizedFailures (disableCacheEnv emptyPayloadEnv) ["t"] "%s %s" ()) ∧
    (getAIResultForSanitizedFailures emptyPayloadEnv ["t"] "%s %s" ()).2.2 = 1 :=
  c10_empty_cached_payload_is_miss emptyPayloadEnv () ["t"] "%s %s" rfl rfl rfl

/-- C7: when the remote completion call fails while explaining a result,
the explanation step stops and classifies the error by its message — an
error containing `status code: 429` becomes the quota-exhaustion message
tagged with the provider's name, any other error the generic
provider-failure message, also tagged with the provider's name. -/
theorem c7_remote_error_classification (env : AIEnv σ) (cs : σ)
    (anonymize : Bool) (r : Result) (rest : List Result) (e : String)
    (hdis : env.cacheDisabled cs = true)
    (hrem : env.getCompletion
      (renderPrompt env (selectPromptTemplate env.promptMap r.kind)
        (String.intercalate " " (collectTexts anonymize r))) = .error e) :
    getAIResults env anonymize (r :: rest) cs =
      (some (if hasSubS e "status code: 429" then quotaErrMsg env.aiName e
             else providerErrMsg env.aiName e),
       r :: rest, cs, 1) := by
  obtain ⟨cd, ce, cl, cst, an, gc, be, bd, lang, pm⟩ := env
  simp only at hdis hrem
  simp [getAIResults, getAIResultForSanitizedFailures, hdis, hrem]

/-- Witness for C7: a remote failure mentioning `status code: 429` is
classified as quota exhaustion, tagged `openai`. -/
theorem c7_remote_error_classification_witness :
    getAIResults remoteFailEnv false [⟨"Pod", [⟨"oom", []⟩], ""⟩] () =
      (some (if hasSubS "request error, status code: 429" "status code: 429"
               then quotaErrMsg "openai" "request error, status code: 429"
               else providerErrMsg "openai" "request error, status code: 429"),
       [⟨"Pod", [⟨"oom", []⟩], ""⟩], (), 1) :=
  c7_remote_error_classification remoteFailEnv () false ⟨"Pod", [⟨"oom", []⟩], ""⟩ []
    "request error, status code: 429" rfl rfl

/-- C9: if the explanation step aborts with an error, there is a failing
index `i`: every result before `i` keeps the `Details` value it was
assigned (its other fields unchanged), and every result at index `i` or
beyond — including the one being processed — is left exactly as it was;
no later result is processed. -/
theorem c9_explain_abort_preserves_prefix (env : AIEnv σ) (anonymize : Bool)
    (rs : List Result) (cs : σ) (msg : String) (out : List Result) (cs1 : σ) (n : Nat)
    (h : getAIResults env anonymize rs cs = (some msg, out, cs1, n)) :
    out.length = rs.length ∧
    ∃ i, i < rs.length ∧
      (∀ j, i ≤ j → out[j]? = rs[j]?) ∧
      (∀ j, j < i → ∃ d, out[j]? =
        (rs[j]?).map (fun r => { r with details := d })) := by
  induction rs generalizing cs msg out cs1 n with
  | nil => simp [getAIResults] at h
  | cons r rest ih =>
    cases hstep : getAIResultForSanitizedFailures env (collectTexts anonymize r)
        (selectPromptTemplate env.promptMap r.kind) cs with
    | mk res tail =>
      obtain ⟨cs2, m⟩ := tail
      cases res with
      | error e =>
        simp only [getAIResults, hstep, Prod.mk.injEq] at h
        obtain ⟨hmsg, hout, hcs, hn⟩ := h
        subst hout
        refine ⟨rfl, 0, by simp, fun j hj => rfl, fun j hj => absurd hj (by omega)⟩
      | ok result =>
        cases hrec : getAIResults env anonymize rest cs2 with
        | mk err2 tail2 =>
          obtain ⟨out2, cs3, n2⟩ := tail2
          simp only [getAIResults, hstep, hrec, Prod.mk.injEq] at h
          obtain ⟨hmsg, hout, hcs, hn⟩ := h
          subst hmsg
          obtain ⟨hlen, i, hi, hge, hlt⟩ := ih cs2 msg out2 cs3 n2 hrec
          subst hout
          refine ⟨by simpa using hlen, i + 1, by simpa using hi, ?_, ?_⟩
          · intro j hj
            cases j with
            | zero => omega
            | succ k =>
              simpa using hge k (by omega)
          · intro j hj
            cases j with
            | zero =>
              exact ⟨if anonymize then unmaskAll r.error result else result, by simp⟩
            | succ k =>
              obtain ⟨d, hd⟩ := hlt k (by omega)
              exact ⟨d, by simpa using hd⟩

/-- Witness for C9: a three-result run whose second result's prompt makes
the remote call fail — the first result keeps its assigned details, the
second and third are untouched. -/
theorem c9_explain_abort_preserves_prefix_witness :
    ([⟨"Pod", [⟨"ok wow", []⟩], "explained"⟩, ⟨"Service", [⟨"bad omen", []⟩], ""⟩,
      ⟨"Ingress", [], ""⟩] : List Result).length =
      ([⟨"Pod", [⟨"ok wow", []⟩], ""⟩, ⟨"Service", [⟨"bad omen", []⟩], ""⟩,
        ⟨"Ingress", [], ""⟩] : List Result).length ∧
    ∃ i, i < ([⟨"Pod", [⟨"ok wow", []⟩], ""⟩, ⟨"Service", [⟨"bad omen", []⟩], ""⟩,
        ⟨"Ingress", [], ""⟩] : List Result).length ∧
      (∀ j, i ≤ j →
        ([⟨"Pod", [⟨"ok wow", []⟩], "explained"⟩, ⟨"Service", [⟨"bad omen", []⟩], ""⟩,
          ⟨"Ingress", [], ""⟩] : List Result)[j]? =
        ([⟨"Pod", [⟨"ok wow", []⟩], ""⟩, ⟨"Service", [⟨"bad omen", []⟩], ""⟩,
          ⟨"Ingress", [], ""⟩] : List Result)[j]?) ∧
      (∀ j, j < i → ∃ d,
        ([⟨"Pod", [⟨"ok wow", []⟩], "explained"⟩, ⟨"Service", [⟨"bad omen", []⟩], ""⟩,
          ⟨"Ingress", [], ""⟩] : List Result)[j]? =
        (([⟨"Pod", [⟨"ok wow", []⟩], ""⟩, ⟨"Service", [⟨"bad omen", []⟩], ""⟩,
          ⟨"Ingress", [], ""⟩] : List Result)[j]?).map
            (fun r => { r with details := d })) :=
  c9_explain_abort_preserves_prefix stepFailEnv false
    [⟨"Pod", [⟨"ok wow", []⟩], ""⟩, ⟨"Service", [⟨"bad omen", []⟩], ""⟩,
      ⟨"Ingress", [], ""⟩] ()
    "failed while calling AI provider openai: boom"
    [⟨"Pod", [⟨"ok wow", []⟩], "explained"⟩, ⟨"Service", [⟨"bad omen", []⟩], ""⟩,
      ⟨"Ingress", [], ""⟩] () 2 rfl

/-- C6 counterexample: with caching enabled and an identical request both
times, an empty remote response defeats the cache — base64 of the empty
string is the empty payload, which the lookup treats as a miss, so each
of the two calls invokes the remote completion service once (two calls in
total, not at most one). -/
theorem c6_empty_response_defeats_cache_counterexample :
    (getAIResultForSanitizedFailures emptyResponseEnv ["failure text"] "%s %s"
        ⟨false, []⟩).2.2 = 1 ∧
    (getAIResultForSanitizedFailures emptyResponseEnv ["failure text"] "%s %s"
        (getAIResultForSanitizedFailures emptyResponseEnv ["failure text"] "%s %s"
          ⟨false, []⟩).2.1).2.2 = 1 :=
  ⟨rfl, rfl⟩

/-- C6 amended: with caching enabled, a fresh key, and a non-empty remote
response whose encoded payload decodes back to it, two identical
explanation-step calls invoke the remote service exactly once in total —
the first call invokes it once and stores the encoded payload, and the
second call performs no remote call and returns the base64-decode of the
payload stored by the first call. -/
theorem c6_cache_idempotence (aiName language tmpl resp : String)
    (texts : List String) (getC : String → Except String String)
    (b64e : String → String) (b64d : String → Except String String)
    (pm entries0 : List (String × String))
    (hmiss : lookupStr entries0
      (getCacheKey aiName language (String.intercalate " " texts)) = none)
    (hresp : getC (renderPrompt (listCacheEnv aiName language getC b64e b64d pm) tmpl
      (String.intercalate " " texts)) = .ok resp)
    (hne : b64e resp ≠ "")
    (hrt : b64d (b64e resp) = .ok resp) :
    getAIResultForSanitizedFailures (listCacheEnv aiName language getC b64e b64d pm)
        texts tmpl ⟨false, entries0⟩ =
      (.ok resp,
       ⟨false, (getCacheKey aiName language (String.intercalate " " texts),
          b64e resp) :: entries0⟩, 1) ∧
    getAIResultForSanitizedFailures (listCacheEnv aiName language getC b64e b64d pm)
        texts tmpl
        ⟨false, (getCacheKey aiName language (String.intercalate " " texts),
          b64e resp) :: entries0⟩ =
      (b64d (b64e resp),
       ⟨false, (getCacheKey aiName language (String.intercalate " " texts),
          b64e resp) :: entries0⟩, 0) ∧
    b64d (b64e resp) = .ok resp := by
  refine ⟨?_, ?_, hrt⟩
  · simp only [listCacheEnv] at hresp
    simp [getAIResultForSanitizedFailures, listCacheEnv, CacheState.existsKey,
      CacheState.loadKey, CacheState.storeKey, hmiss, hresp]
  · simp [getAIResultForSanitizedFailures, listCacheEnv, CacheState.existsKey,
      CacheState.loadKey, CacheState.storeKey, lookupStr, hne, hrt]

/-- Witness for C6 amended at a concrete request and response. -/
theorem c6_cache_idempotence_witness :
    getAIResultForSanitizedFailures
        (listCacheEnv "openai" "english" (fun _ => .ok "remote response") id
          (fun s => .ok s) []) ["t"] "%s %s" ⟨false, []⟩ =
      (.ok "remote response",
       ⟨false, [(getCacheKey "openai" "english" (String.intercalate " " ["t"]),
          id "remote response")]⟩, 1) ∧
    getAIResultForSanitizedFailures
        (listCacheEnv "openai" "english" (fun _ => .ok "remote response") id
          (fun s => .ok s) []) ["t"] "%s %s"
        ⟨false, [(getCacheKey "openai" "english" (String.intercalate " " ["t"]),
          id "remote response")]⟩ =
      ((fun s => (.ok s : Except String String)) (id "remote response"),
       ⟨false, [(getCacheKey "openai" "english" (String.intercalate " " ["t"]),
          id "remote response")]⟩, 0) ∧
    (fun s => (.ok s : Except String String)) (id "remote response") =
      .ok "remote response" :=
  c6_cache_idempotence "openai" "english" "%s %s" "remote response" ["t"]
    (fun _ => .ok "remote response") id (fun s => .ok s) [] []
    rfl rfl (by decide) rfl

/-- Witness for C8: explicit filters `[bogus, Pod]` against a registry
`[Pod, Service]` not containing `bogus`. -/
theorem c8_unknown_explicit_filter_witness :
    (selectAnalyzers ["bogus", "Pod"] ["Ingress"] ["Pod"] ["Pod", "Service"]).2.count
        (unknownFilterMsg "bogus") = 1 ∧
    hasSubS (unknownFilterMsg "bogus") "bogus" = true ∧
    "bogus" ∉ (selectAnalyzers ["bogus", "Pod"] ["Ingress"] ["Pod"] ["Pod", "Service"]).1 ∧
    (∀ f ∈ (["bogus", "Pod"] : List String), (["Pod", "Service"] : List String).contains f = true →
      f ∈ (selectAnalyzers ["bogus", "Pod"] ["Ingress"] ["Pod"] ["Pod", "Service"]).1) ∧
    (∀ af : List String, af ≠ [] →
      (selectAnalyzers [] af ["Pod"] ["Pod", "Service"]).2 = []) :=
  c8_unknown_explicit_filter "bogus" ["bogus", "Pod"] ["Ingress"] ["Pod"] ["Pod", "Service"]
    (by decide) (by decide) (by decide)

/-- The replacement scan is independent of the fuel, provided the fuel
covers the text length. -/
theorem replaceAllFuel_congr (old new : List Char) :
    ∀ f1 f2 s, s.length ≤ f1 → s.length ≤ f2 →
      replaceAllFuel old new f1 s = replaceAllFuel old new f2 s := by
  intro f1
  induction f1 with
  | zero =>
    intro f2 s h1 h2
    have hs : s = [] := List.length_eq_zero.mp (Nat.le_zero.mp h1)
    subst hs
    cases f2 <;> rfl
  | succ f1 ih =>
    intro f2 s h1 h2
    cases s with
    | nil => cases f2 <;> rfl
    | cons c rest =>
      cases f2 with
      | zero => simp at h2
      | succ f2 =>
        simp only [replaceAllFuel]
        by_cases hp : old ≠ [] ∧ old.isPrefixOf (c :: rest)
        · rw [if_pos hp, if_pos hp]
          have hlen : (rest.drop (old.length - 1)).length ≤ rest.length := by
            simp only [List.length_drop]
            omega
          simp only [List.length_cons] at h1 h2
          rw [ih f2 _ (by omega) (by omega)]
        · rw [if_neg hp, if_neg hp]
          simp only [List.length_cons] at h1 h2
          rw [ih f2 rest (by omega) (by omega)]

/-- Scan equation: the empty text is unchanged. -/
theorem replaceAllL_nil (old new : List Char) : replaceAllL old new [] = [] := rfl

/-- Scan equation: a match at the head emits the replacement and
continues after the matched occurrence. -/
theorem replaceAllL_cons_pos {old : List Char} (new : List Char) {c : Char}
    {rest : List Char} (hne : old ≠ []) (hp : old.isPrefixOf (c :: rest)) :
    replaceAllL old new (c :: rest) =
      new ++ replaceAllL old new (rest.drop (old.length - 1)) := by
  show replaceAllFuel old new (rest.length + 1) (c :: rest) = _
  simp only [replaceAllFuel]
  rw [if_pos ⟨hne, hp⟩]
  congr 1
  apply replaceAllFuel_congr
  · simp only [List.length_drop]
    omega
  · exact le_rfl

/-- Scan equation: no match at the head keeps the character. -/
theorem replaceAllL_cons_neg {old : List Char} (new : List Char) {c : Char}
    {rest : List Char} (h : ¬(old ≠ [] ∧ old.isPrefixOf (c :: rest))) :
    replaceAllL old new (c :: rest) = c :: replaceAllL old new rest := by
  show replaceAllFuel old new (rest.length + 1) (c :: rest) = _
  simp only [replaceAllFuel]
  rw [if_neg h]
  rfl

/-- A non-empty pattern matching at the head of a text forces the head
characters to agree. -/
theorem isPrefixOf_head_eq {m c : Char} {ms X : List Char}
    (h : (m :: ms).isPrefixOf (c :: X)) : m = c := by
  simp only [List.isPrefixOf, Bool.and_eq_true, beq_iff_eq] at h
  exact h.1

/-- Scanning a text that starts with the whole pattern replaces that
occurrence first and then scans the remainder. -/
theorem replaceAllL_pattern_append {M : List Char} (U X : List Char) (hM : M ≠ []) :
    replaceAllL M U (M ++ X) = U ++ replaceAllL M U X := by
  cases M with
  | nil => exact absurd rfl hM
  | cons m ms =>
    have hp : (m :: ms).isPrefixOf (m :: (ms ++ X)) := by
      rw [List.isPrefixOf_iff_prefix]
      exact List.prefix_append (m :: ms) X
    rw [show (m :: ms) ++ X = m :: (ms ++ X) from rfl,
      replaceAllL_cons_pos U (by simp) hp]
    congr 1
    rw [show (m :: ms).length - 1 = ms.length by simp, List.drop_left]

/-- Replacing every occurrence of a non-empty `U` by `M` and then every
occurrence of `M` by `U` restores the text, provided no character of `M`
occurs in the text. -/
theorem replaceAll_mask_unmask (U M : List Char) (hU : U ≠ []) (hM : M ≠ []) :
    ∀ (n : Nat) (T : List Char), T.length ≤ n → (∀ c ∈ M, c ∉ T) →
      replaceAllL M U (replaceAllL U M T) = T := by
  intro n
  induction n with
  | zero =>
    intro T hlen _
    have hT : T = [] := List.length_eq_zero.mp (Nat.le_zero.mp hlen)
    subst hT
    rfl
  | succ n ih =>
    intro T hlen hdisj
    cases T with
    | nil => rfl
    | cons c rest =>
      simp only [List.length_cons, Nat.add_le_add_iff_right] at hlen
      by_cases hp : U.isPrefixOf (c :: rest)
      · cases U with
        | nil => exact absurd rfl hU
        | cons u us =>
          obtain ⟨t, ht⟩ := List.isPrefixOf_iff_prefix.mp hp
          have hu : u = c := by
            have := congrArg (fun l => l.head?) ht
            simpa using this
          have hr : us ++ t = rest := by
            have := congrArg List.tail ht
            simpa using this
          have hrd : rest.drop ((u :: us).length - 1) = t := by
            rw [← hr]
            simp only [List.length_cons, Nat.add_sub_cancel]
            exact List.drop_left us t
          rw [replaceAllL_cons_pos M (by simp) hp, hrd,
            replaceAllL_pattern_append (u :: us) _ hM]
          have hlent : t.length ≤ n := by
            have := congrArg List.length ht
            simp only [List.length_append, List.length_cons] at this
            omega
          have hdisjt : ∀ ch ∈ M, ch ∉ t := by
            intro ch hchM hcht
            exact hdisj ch hchM (ht ▸ List.mem_append_right (u :: us) hcht)
          rw [ih t hlent hdisjt]
          exact ht
      · rw [replaceAllL_cons_neg M (fun hand => hp hand.2)]
        have hnp : ¬ (M ≠ [] ∧ M.isPrefixOf (c :: replaceAllL U M rest)) := by
          rintro ⟨-, hMp⟩
          cases M with
          | nil => exact hM rfl
          | cons m ms =>
            exact hdisj m (List.mem_cons_self m ms)
              (isPrefixOf_head_eq hMp ▸ List.mem_cons_self c rest)
        rw [replaceAllL_cons_neg U hnp]
        congr 1
        exact ih rest hlen (fun ch hchM hmem => hdisj ch hchM (List.mem_cons_of_mem c hmem))

/-- C5 counterexample: text `ab` with the registered pair
`(Unmasked U, Masked M) = (b, aa)` — `T` contains `U`, `M` does not
otherwise occur in `T`, yet masking produces `aaa` and unmasking's
leftmost non-overlapping scan then yields `ba`, not `ab`: a spurious
occurrence of `M` straddles the boundary between residual text and the
inserted mask. -/
theorem c5_mask_roundtrip_counterexample :
    hasSubS "ab" "b" = true ∧
    hasSubS "ab" "aa" = false ∧
    maskText [⟨"b", "aa"⟩] "ab" = "aaa" ∧
    unmaskText [⟨"b", "aa"⟩] (maskText [⟨"b", "aa"⟩] "ab") = "ba" ∧
    ("ba" : String) ≠ "ab" := by
  refine ⟨rfl, rfl, by decide, by decide, by decide⟩

/-- C5 amended: masking then unmasking restores the text exactly under
the stronger hypothesis that no character of `M` occurs in `T` (rather
than merely `M` not occurring as a substring of `T`), with `U` and `M`
non-empty. -/
theorem c5_mask_unmask_inverse (T U M : String)
    (hU : U ≠ "") (hM : M ≠ "")
    (hdisj : ∀ c ∈ M.data, c ∉ T.data) :
    unmaskText [⟨U, M⟩] (maskText [⟨U, M⟩] T) = T := by
  have hU' : U.data ≠ [] := fun h => hU (String.ext h)
  have hM' : M.data ≠ [] := fun h => hM (String.ext h)
  have key : ∀ (s old new : String), old.data ≠ [] →
      goReplaceAllS s old new = ⟨replaceAllL old.data new.data s.data⟩ := by
    intro s old new h
    unfold goReplaceAllS goReplaceAll
    rw [if_neg h]
  show goReplaceAllS (goReplaceAllS T U M) M U = T
  rw [key T U M hU', key _ M U hM']
  exact String.ext
    (replaceAll_mask_unmask U.data M.data hU' hM' T.data.length T.data le_rfl hdisj)

/-- Witness for C5 amended: masking a pod name with a mask whose
characters do not occur in the text round-trips exactly. -/
theorem c5_mask_unmask_inverse_witness :
    unmaskText [⟨"my-secret-pod", "0x0"⟩]
      (maskText [⟨"my-secret-pod", "0x0"⟩] "error in pod my-secret-pod: abc") =
      "error in pod my-secret-pod: abc" :=
  c5_mask_unmask_inverse "error in pod my-secret-pod: abc" "my-secret-pod" "0x0"
    (by decide) (by decide) (by decide)

end K8sgpt
